import Mathlib

/-!
Formal model of the turbine calculator repository.

The Go sources consist of a turbine physics model (construction, per-tick
state update, closed-form equilibrium solver) and a brute-force optimizer.
Modelling conventions used throughout this development:
  * Go float64 values are modelled as real numbers.
  * Go int32 and int64 values are modelled as unbounded integers; all
    quantities manipulated by the verified claims stay far below the
    machine bounds.
  * Go loops are modelled as folds and sums over explicit lists that
    enumerate exactly the iterations of the loop, in loop order.
  * Fallible construction is modelled with Except.
Each definition mirrors one Go function and keeps its name.
-/

noncomputable section

/-- Inner size of a turbine (Go struct Size). -/
structure Size where
  x : ℤ
  y : ℤ
  z : ℤ

/-- One vertical rotor level: blade length in each quadrant (Go struct Vec4). -/
structure Vec4 where
  w : ℤ
  x : ℤ
  y : ℤ
  z : ℤ

/-- Coil material coefficients (Go struct CoilData). -/
structure CoilData where
  efficiency : ℝ
  bonus : ℝ
  extractionRate : ℝ

/-- Go struct Turbine, with all simulation fields. -/
structure Turbine where
  size : Size
  active : Bool
  coilSize : ℤ
  inductionEfficiency : ℝ
  inductorDragCoefficient : ℝ
  inductionEnergyExponentBonus : ℝ
  rotorCapacityPerRPM : ℝ
  maxFlowRate : ℤ
  maxMaxFlowRate : ℤ
  rotorShafts : ℤ
  rotorAxialMass : ℝ
  rotorMass : ℝ
  linearBladeMetersPerRevolution : ℝ
  coilEngaged : Bool
  rotorEnergy : ℝ
  fluidTankCapacity : ℝ
  batteryCapacity : ℝ
  energyGeneratedLastTick : ℝ
  rotorEfficiencyLastTick : ℝ
  inductorDragLastTick : ℝ
  frictionDragLastTick : ℝ
  aeroDragLastTick : ℝ
  coilEfficiencyLastTick : ℝ

/-- The Go zero value of struct Turbine. -/
def zeroTurbine : Turbine :=
  { size := ⟨0, 0, 0⟩, active := false, coilSize := 0,
    inductionEfficiency := 0, inductorDragCoefficient := 0,
    inductionEnergyExponentBonus := 0, rotorCapacityPerRPM := 0,
    maxFlowRate := 0, maxMaxFlowRate := 0, rotorShafts := 0,
    rotorAxialMass := 0, rotorMass := 0, linearBladeMetersPerRevolution := 0,
    coilEngaged := false, rotorEnergy := 0, fluidTankCapacity := 0,
    batteryCapacity := 0, energyGeneratedLastTick := 0,
    rotorEfficiencyLastTick := 0, inductorDragLastTick := 0,
    frictionDragLastTick := 0, aeroDragLastTick := 0,
    coilEfficiencyLastTick := 0 }

/-- Constant FlowRatePerBlock. -/
def FlowRatePerBlock : ℤ := 5000

/-- Constant LatentHeat. -/
def LatentHeat : ℝ := 4

/-- Constant TurbineMultiplier. -/
def TurbineMultiplier : ℝ := 2.5

/-- Constant FluidPerBladeLinerKilometre. -/
def FluidPerBladeLinerKilometre : ℝ := 20

/-- Constant RotorAxialMassPerShaft. -/
def RotorAxialMassPerShaft : ℝ := 100

/-- Constant RotorAxialMassPerBlade. -/
def RotorAxialMassPerBlade : ℝ := 100

/-- Constant CoilDragMultiplier. -/
def CoilDragMultiplier : ℝ := 10

/-- Constant BatterySizePerCoilBlock. -/
def BatterySizePerCoilBlock : ℝ := 300000

/-- Constant TankVolumePerBlock. -/
def TankVolumePerBlock : ℝ := 10000

/-- Constant EffectiveGridFrequency. -/
def EffectiveGridFrequency : ℝ := 30

/-- Constant EfficiencyPeaks. -/
def EfficiencyPeaks : ℝ := 2

/-- Constant FrictionDragMultiplier. -/
def FrictionDragMultiplier : ℝ := 5e-4

/-- Constant AerodynamicDragMultiplier. -/
def AerodynamicDragMultiplier : ℝ := 5e-4

/-- Go package-level value log2. -/
def log2 : ℝ := Real.log 2

/-- Go package-level value logPeakRPM. -/
def logPeakRPM : ℝ := Real.log (EffectiveGridFrequency * 60)

/-- Go package-level value MinEfficiencyScale, math.Pow(2, EfficiencyPeaks-0.5). -/
def MinEfficiencyScale : ℝ := (2 : ℝ) ^ (EfficiencyPeaks - 0.5)

/-- The four geometry validation failures of NewTurbine, tagged. -/
inductive GeometryError where
  | WidthMustBeOdd
  | TooManyCoilLayers
  | TooSmall
  | NoCoilLayers
deriving DecidableEq

/-- Go method Reset: clear accumulated rotor energy. -/
def Turbine.Reset (t : Turbine) : Turbine :=
  { t with rotorEnergy := 0 }

/-- Go method Resize: set inner size and derived maximum flow rate. -/
def Turbine.Resize (t : Turbine) (dim : Size) : Turbine :=
  { t with size := dim, coilSize := 0,
           inductionEfficiency := 0, inductorDragCoefficient := 0,
           inductionEnergyExponentBonus := 0,
           maxMaxFlowRate := (dim.x * dim.z - 1) * FlowRatePerBlock }

/-- Go method SetNominalFlowRate: clamp the requested rate into range. -/
def Turbine.SetNominalFlowRate (t : Turbine) (flowRate : ℤ) : Turbine :=
  { t with maxFlowRate := min t.maxMaxFlowRate (max 0 flowRate) }

/-- Go helper sumRangeFromZero inside SetRotorConfiguration. -/
def sumRangeFromZero (x : ℤ) : ℤ := (x + 1) * x / 2

/-- Go conversion int64(x) for a float64 x: truncation toward zero. -/
def truncToInt (x : ℝ) : ℤ := if 0 ≤ x then ⌊x⌋ else ⌈x⌉

/-- Go method SetRotorConfiguration.  The Go loop accumulates, over all
rotor levels, the four triangular numbers into
linearBladeMetersPerRevolution and the four blade lengths into rotorMass;
the loop is modelled by list sums over the same levels in the same order. -/
def Turbine.SetRotorConfiguration (t : Turbine) (rotorConfiguration : List Vec4) : Turbine :=
  let lbl : ℝ :=
    (rotorConfiguration.map (fun bl =>
      ((sumRangeFromZero bl.w : ℤ) : ℝ) + ((sumRangeFromZero bl.x : ℤ) : ℝ) +
      ((sumRangeFromZero bl.y : ℤ) : ℝ) + ((sumRangeFromZero bl.z : ℤ) : ℝ))).sum
  let massSum : ℝ :=
    (rotorConfiguration.map (fun bl => ((bl.w + bl.x + bl.y + bl.z : ℤ) : ℝ))).sum
  let rcp : ℝ := lbl * FluidPerBladeLinerKilometre / 1000 * (2 * Real.pi)
  let shafts : ℤ := rotorConfiguration.length
  let t2 : Turbine := { t with
    linearBladeMetersPerRevolution := lbl,
    rotorCapacityPerRPM := rcp,
    rotorShafts := shafts,
    rotorAxialMass := (shafts : ℝ) * RotorAxialMassPerShaft + lbl * RotorAxialMassPerBlade,
    rotorMass := massSum * RotorAxialMassPerBlade + (shafts : ℝ) * RotorAxialMassPerShaft }
  if t2.maxFlowRate = -1 then
    t2.SetNominalFlowRate (truncToInt (rcp * 1800))
  else t2

/-- Go method SetFullCoil.  The loop over concentric ring index i adds,
per ring, coilsOnLayer = (i+1)*2*4*layerNumber coil blocks and weighted
coefficient contributions; it is modelled by sums over the same indices. -/
def Turbine.SetFullCoil (t : Turbine) (layerNumber : ℤ) (coilData : CoilData) : Turbine :=
  let idx := List.range (t.size.x / 2).toNat
  { t with
    coilSize := t.coilSize + (idx.map (fun i => ((i : ℤ) + 1) * 2 * 4 * layerNumber)).sum,
    inductionEfficiency := t.inductionEfficiency +
      (idx.map (fun i => coilData.efficiency * (((((i : ℤ) + 1) * 2 * 4 * layerNumber : ℤ)) : ℝ))).sum,
    inductionEnergyExponentBonus := t.inductionEnergyExponentBonus +
      (idx.map (fun i => coilData.bonus * (((((i : ℤ) + 1) * 2 * 4 * layerNumber : ℤ)) : ℝ))).sum,
    inductorDragCoefficient := t.inductorDragCoefficient +
      (idx.map (fun i => coilData.extractionRate * (((((i : ℤ) + 1) * 2 * 4 * layerNumber : ℤ)) : ℝ) *
        (2 / ((i : ℝ) + 2)))).sum }

/-- Go method UpdateInternalValues. -/
def Turbine.UpdateInternalValues (t : Turbine) : Turbine :=
  let t1 := { t with inductorDragCoefficient := t.inductorDragCoefficient * CoilDragMultiplier }
  let t2 := { t1 with batteryCapacity := ((t1.coilSize + 1 : ℤ) : ℝ) * BatterySizePerCoilBlock }
  let t3 :=
    if t2.coilSize ≤ 0 then
      { t2 with inductionEfficiency := 0, inductorDragCoefficient := 0,
                inductionEnergyExponentBonus := 0 }
    else
      { t2 with inductionEfficiency := t2.inductionEfficiency / (t2.coilSize : ℝ),
                inductionEnergyExponentBonus := t2.inductionEnergyExponentBonus / (t2.coilSize : ℝ),
                inductorDragCoefficient := t2.inductorDragCoefficient / (t2.coilSize : ℝ) }
  { t3 with fluidTankCapacity :=
      ((t3.size.x : ℝ) * (t3.size.y : ℝ) * (t3.size.z : ℝ) -
        ((t3.rotorShafts : ℝ) + (t3.coilSize : ℝ))) * TankVolumePerBlock }

/-- The construction pipeline of NewTurbine after its four geometry guards
pass, exactly in Go statement order. -/
def buildTurbine (height width coilLayers : ℤ) (coilType : CoilData) : Turbine :=
  let turbineDimensions : Size := ⟨width - 2, height - 2, width - 2⟩
  let t1 := zeroTurbine.Reset
  let t2 := t1.Resize turbineDimensions
  let t3 := t2.SetFullCoil coilLayers coilType
  let bladeLength := turbineDimensions.x / 2
  let rotors : List Vec4 :=
    List.replicate (turbineDimensions.y - coilLayers).toNat
      ⟨bladeLength, bladeLength, bladeLength, bladeLength⟩ ++
    List.replicate coilLayers.toNat ⟨0, 0, 0, 0⟩
  let t4 := t3.SetRotorConfiguration rotors
  let t5 := t4.UpdateInternalValues
  let t6 := { t5 with active := true, coilEngaged := true }
  t6.SetNominalFlowRate 0

/-- Go function NewTurbine: four geometry guards in source order, then the
construction pipeline. -/
def NewTurbine (height width coilLayers : ℤ) (coilType : CoilData) :
    Except GeometryError Turbine :=
  if width % 2 = 0 then .error .WidthMustBeOdd
  else if height - 3 < coilLayers then .error .TooManyCoilLayers
  else if height < 4 ∨ width < 5 then .error .TooSmall
  else if coilLayers < 1 then .error .NoCoilLayers
  else .ok (buildTurbine height width coilLayers coilType)

/-- Go method RPM. -/
def Turbine.RPM (t : Turbine) : ℝ := t.rotorEnergy / t.rotorAxialMass

/-- Go method SetEnergyForRPM. -/
def Turbine.SetEnergyForRPM (t : Turbine) (rpm : ℝ) : Turbine :=
  { t with rotorEnergy := t.rotorAxialMass * rpm }

/-- Go function fasterPow: truncated Taylor expansion of x^y around y = 1,
accumulated exactly as in the source. -/
def fasterPow (x y : ℝ) : ℝ :=
  if x = 0 ∨ y = 1 then x
  else
    let p := (y - 1) * Real.log x
    x + x * p + x * p * (0.5 * p) + x * p * (0.5 * p) * (0.33333333333 * p) +
      x * p * (0.5 * p) * (0.33333333333 * p) * (0.25 * p)

/-- Local value peakRPM computed inside Tick: frequency * 60. -/
def peakRPM : ℝ := EffectiveGridFrequency * 60

/-- Local value minRPM computed inside Tick: peakRPM / MinEfficiencyScale. -/
def minRPM : ℝ := peakRPM / MinEfficiencyScale

/-- The middle branch of the coil efficiency curve in Tick (minRPM ≤ rpm ≤
peakRPM): the log-periodic oscillation formula. -/
def coilEfficiencyMid (rpm : ℝ) : ℝ :=
  -0.25 * Real.cos ((-2 * ((Real.log rpm - logPeakRPM) / log2) + 1) * Real.pi) + 0.75

/-- The high branch of the coil efficiency curve in Tick (rpm > peakRPM):
parabolic falloff clamped at zero. -/
def coilEfficiencyHigh (rpm : ℝ) : ℝ :=
  max 0 (-(rpm - peakRPM) * (rpm - peakRPM) / (8 * EffectiveGridFrequency * peakRPM) + 1)

/-- The three-regime coil efficiency computation inside Tick. -/
def coilEfficiency (rpm : ℝ) : ℝ :=
  if rpm < minRPM then 0.5
  else if rpm > peakRPM then coilEfficiencyHigh rpm
  else coilEfficiencyMid rpm

/-- The effective flow computation inside Tick: rotor capacity at the
current speed with a floor of 100 RPM, and a diminishing-returns penalty
for flow beyond capacity. -/
def tickEffectiveFlow (t : Turbine) (rpm : ℝ) : ℝ :=
  let flowRate : ℝ := (t.maxFlowRate : ℝ)
  let rotorCapacity := t.rotorCapacityPerRPM * max 100 rpm
  if flowRate > rotorCapacity then
    rotorCapacity + (flowRate - rotorCapacity) * (rotorCapacity / flowRate)
  else flowRate

/-- Go method Tick, in source statement order: flow heating, induction
drag, friction drag, aerodynamic drag, and the final clamp of rotor
energy at zero. -/
def Turbine.Tick (t : Turbine) : Turbine :=
  let rpm := t.RPM
  let t1 : Turbine :=
    if t.active then
      let flowRate : ℝ := (t.maxFlowRate : ℝ)
      let effectiveFlowRate := tickEffectiveFlow t rpm
      let ta : Turbine :=
        { t with rotorEfficiencyLastTick :=
            if flowRate ≠ 0 then effectiveFlowRate / flowRate else 0 }
      if effectiveFlowRate > 0 then
        { ta with rotorEnergy :=
            ta.rotorEnergy + effectiveFlowRate * LatentHeat * TurbineMultiplier }
      else ta
    else { t with rotorEfficiencyLastTick := 0 }
  let t2 : Turbine :=
    if t1.coilEngaged then
      let inductionTorque := rpm * t1.inductorDragCoefficient * (t1.coilSize : ℝ)
      let energyToGenerate :=
        fasterPow inductionTorque t1.inductionEnergyExponentBonus * t1.inductionEfficiency
      let efficiency := coilEfficiency rpm
      { t1 with coilEfficiencyLastTick := efficiency,
                energyGeneratedLastTick := energyToGenerate * efficiency,
                inductorDragLastTick := inductionTorque,
                rotorEnergy := t1.rotorEnergy - inductionTorque }
    else { t1 with inductorDragLastTick := 0, energyGeneratedLastTick := 0 }
  let t3 : Turbine :=
    { t2 with frictionDragLastTick :=
        t2.rotorMass * (rpm * FrictionDragMultiplier) * (rpm * FrictionDragMultiplier) }
  let t4 : Turbine := { t3 with rotorEnergy := t3.rotorEnergy - t3.frictionDragLastTick }
  let t5 : Turbine :=
    { t4 with aeroDragLastTick :=
        t4.linearBladeMetersPerRevolution * (rpm * AerodynamicDragMultiplier) *
          (rpm * AerodynamicDragMultiplier) }
  let t6 : Turbine := { t5 with rotorEnergy := t5.rotorEnergy - t5.aeroDragLastTick }
  if t6.rotorEnergy < 0 then { t6 with rotorEnergy := 0 } else t6

/-- Local value RFPerHeat inside FinalRPM. -/
def RFPerHeat : ℝ := LatentHeat * TurbineMultiplier

/-- The low-speed effective flow of FinalRPM: capacity floored at 100 RPM
and the algebraically simplified diminishing-returns formula from the
source. -/
def lowSpeedEffectiveFlow (t : Turbine) : ℝ :=
  let flowRate : ℝ := (t.maxFlowRate : ℝ)
  let rotorCapacity := t.rotorCapacityPerRPM * 100
  if flowRate > rotorCapacity then
    rotorCapacity + rotorCapacity - rotorCapacity * rotorCapacity / flowRate
  else flowRate

/-- Quadratic coefficient a of FinalRPM: friction plus aerodynamic drag. -/
def aCoef (t : Turbine) : ℝ :=
  t.rotorMass * FrictionDragMultiplier * FrictionDragMultiplier +
    t.linearBladeMetersPerRevolution * AerodynamicDragMultiplier * AerodynamicDragMultiplier

/-- Quadratic coefficient b of FinalRPM: induction drag per RPM. -/
def bCoef (t : Turbine) : ℝ := t.inductorDragCoefficient * (t.coilSize : ℝ)

/-- The positive root formula used by FinalRPM. -/
def quadRoot (a b c : ℝ) : ℝ := (-b + Real.sqrt (b * b - 4 * a * c)) / (2 * a)

/-- The root of the low-speed case of FinalRPM. -/
def rpmLow (t : Turbine) : ℝ :=
  quadRoot (aCoef t) (bCoef t) (-lowSpeedEffectiveFlow t * RFPerHeat)

/-- The root of the unrestricted-capacity case of FinalRPM. -/
def rpmNoCap (t : Turbine) : ℝ :=
  quadRoot (aCoef t) (bCoef t) (-(t.maxFlowRate : ℝ) * RFPerHeat)

/-- The root of the capacity-limited case of FinalRPM: fold the capacity
penalty into a and b, set c to zero, return -b/a. -/
def rpmCapped (t : Turbine) : ℝ :=
  let a := aCoef t + t.rotorCapacityPerRPM * t.rotorCapacityPerRPM / (t.maxFlowRate : ℝ) * RFPerHeat
  let b := bCoef t + -2 * t.rotorCapacityPerRPM * RFPerHeat;
  -b / a

/-- Go method FinalRPM: the three cases in source order. -/
def Turbine.FinalRPM (t : Turbine) : ℝ :=
  if rpmLow t < 100 then rpmLow t
  else if (t.maxFlowRate : ℝ) < t.rotorCapacityPerRPM * rpmNoCap t then rpmNoCap t
  else rpmCapped t

/-- Modelled from the specification text of FinalRPM (section 4.4 of the
spec): the same three cases, with the low-speed effective flow written in
the unsimplified diminishing-returns form of Tick, and the
unrestricted-capacity root returned whenever the predicted rotor capacity
is greater than or equal to the nominal flow. -/
def FinalRPMspec (t : Turbine) : ℝ :=
  let flowRate : ℝ := (t.maxFlowRate : ℝ)
  let cap := t.rotorCapacityPerRPM * 100
  let effectiveFlow :=
    if flowRate > cap then cap + (flowRate - cap) * (cap / flowRate) else flowRate
  let a := aCoef t
  let b := bCoef t
  let r1 := quadRoot a b (-effectiveFlow * (LatentHeat * TurbineMultiplier))
  if r1 < 100 then r1
  else
    let r2 := quadRoot a b (-flowRate * (LatentHeat * TurbineMultiplier))
    if t.rotorCapacityPerRPM * r2 ≥ flowRate then r2
    else
      let a3 := a + t.rotorCapacityPerRPM * t.rotorCapacityPerRPM / flowRate *
        (LatentHeat * TurbineMultiplier)
      let b3 := b + -2 * t.rotorCapacityPerRPM * (LatentHeat * TurbineMultiplier);
      -b3 / a3

/-- The Iron entry of the coilTypes material table in the wasm main. -/
def ironCoil : CoilData := ⟨0.33, 1, 0.1⟩

/-- The flow setting variants of the wasm optimizer. -/
inductive FlowSettingVariant where
  | UseMaxFlow
  | FindBestFlow
  | UseSetFlow
  | FindBestUnderFlow

/-- Go struct FlowSetting: variant tag plus one scalar. -/
structure FlowSetting where
  variant : FlowSettingVariant
  value : ℤ

/-- The contents of a Go loop for v := lo; v <= hi; v += step (step ≥ 1),
in iteration order. -/
def intRangeStep (lo hi step : ℤ) : List ℤ :=
  if lo ≤ hi then
    (List.range (((hi - lo) / step).toNat + 1)).map (fun k => lo + step * (k : ℤ))
  else []

/-- State of the FindBestFlow candidate loop in the wasm optimizer: after k
increments the loop variable holds value*(k+1), and the loop guard asks
whether it is still at most maxMaxFlowRate.  Used to reason about
termination of that loop. -/
def flowLoopGuard (value maxMax : ℤ) (k : ℕ) : Prop :=
  value * ((k : ℤ) + 1) ≤ maxMax

/-- The flowRates list built by the switch in findOptimalTurbine.  The Go
FindBestFlow loop never terminates when the step value is nonpositive
(settled separately through flowLoopGuard); for a positive step its
contents are the multiples of the step up to maxMaxFlowRate, which is the
list produced here. -/
def flowRatesFor (flowSetting : FlowSetting) (t : Turbine) : List ℤ :=
  match flowSetting.variant with
  | .UseMaxFlow => [t.maxMaxFlowRate]
  | .FindBestFlow =>
      if 1 ≤ flowSetting.value then
        intRangeStep flowSetting.value t.maxMaxFlowRate flowSetting.value
      else []
  | .UseSetFlow => [flowSetting.value]
  | .FindBestUnderFlow =>
      intRangeStep (max 0 (flowSetting.value - 10000))
        (min t.maxMaxFlowRate flowSetting.value) 100

/-- The evaluation of one flow candidate in findOptimalTurbine: set the
nominal flow rate, solve the closed form, set the rotor energy to the
solved RPM and tick once.  The Go loop reuses one turbine value across
flow candidates, but every field read by a later iteration is either
static or overwritten by this sequence, so evaluation from the freshly
constructed turbine is exact. -/
def evalAtFlow (t : Turbine) (flowRate : ℤ) : Turbine :=
  let t1 := t.SetNominalFlowRate flowRate
  let calculatedRPM := t1.FinalRPM
  (t1.SetEnergyForRPM calculatedRPM).Tick

/-- The full candidate sequence examined by findOptimalTurbine, in loop
order: height ascending from 4, width ascending from 5 by steps of 2,
coil layers ascending from 1 to height - 3, then the flow candidates.
Construction failures and candidates rejected by the constraint
contribute nothing. -/
def evalCandidates (constraint : Turbine → Bool) (coilType : CoilData)
    (flowSetting : FlowSetting) (maxSize : Size) : List Turbine :=
  (intRangeStep 4 maxSize.y 1).flatMap fun height =>
    (intRangeStep 5 maxSize.x 2).flatMap fun width =>
      (intRangeStep 1 (height - 3) 1).flatMap fun coilLayers =>
        match NewTurbine height width coilLayers coilType with
        | .error _ => []
        | .ok t =>
            if constraint t then (flowRatesFor flowSetting t).map (evalAtFlow t)
            else []

/-- The best-candidate update of findOptimalTurbine.  Go initializes the
running best fitness to negative infinity; since every real fitness value
strictly exceeds that sentinel, the pre-first-update state is modelled by
none. -/
def bestStep (fitness : Turbine → ℝ) (acc : Turbine × Option ℝ) (cand : Turbine) :
    Turbine × Option ℝ :=
  match acc with
  | (_, none) => (cand, some (fitness cand))
  | (best, some bestFitness) =>
      if fitness cand > bestFitness then (cand, some (fitness cand))
      else (best, some bestFitness)

/-- Go function findOptimalTurbine: fold the best-candidate update over
the candidate sequence, starting from the zero turbine and the sentinel
fitness. -/
def findOptimalTurbine (fitness : Turbine → ℝ) (constraint : Turbine → Bool)
    (coilType : CoilData) (flowSetting : FlowSetting) (maxSize : Size) : Turbine :=
  ((evalCandidates constraint coilType flowSetting maxSize).foldl
    (bestStep fitness) (zeroTurbine, none)).1

end

noncomputable section

lemma NewTurbine_ok_iff {h w cl : ℤ} {cd : CoilData} {t : Turbine} :
    NewTurbine h w cl cd = Except.ok t ↔
      ¬(w % 2 = 0) ∧ cl ≤ h - 3 ∧ 4 ≤ h ∧ 5 ≤ w ∧ 1 ≤ cl ∧ t = buildTurbine h w cl cd := by
  unfold NewTurbine
  split_ifs with h1 h2 h3 h4
  · exact iff_of_false (by simp) (by rintro ⟨hA, hB, hC, hD, hE, -⟩; omega)
  · exact iff_of_false (by simp) (by rintro ⟨hA, hB, hC, hD, hE, -⟩; omega)
  · exact iff_of_false (by simp) (by rintro ⟨hA, hB, hC, hD, hE, -⟩; omega)
  · exact iff_of_false (by simp) (by rintro ⟨hA, hB, hC, hD, hE, -⟩; omega)
  · constructor
    · intro he
      refine ⟨h1, by omega, by omega, by omega, by omega, (Except.ok.inj he).symm⟩
    · rintro ⟨-, -, -, -, -, rfl⟩
      rfl

lemma buildTurbine_lbl (h w cl : ℤ) (cd : CoilData) :
    (buildTurbine h w cl cd).linearBladeMetersPerRevolution =
      (((h - 2 - cl).toNat : ℕ) : ℝ) * (4 * ((sumRangeFromZero ((w - 2) / 2) : ℤ) : ℝ)) := by
  simp [buildTurbine, zeroTurbine, Turbine.Reset, Turbine.Resize, Turbine.SetFullCoil,
    Turbine.SetRotorConfiguration, Turbine.UpdateInternalValues, Turbine.SetNominalFlowRate,
    apply_ite Turbine.linearBladeMetersPerRevolution]
  ring_nf
  norm_num [sumRangeFromZero]

lemma buildTurbine_active (h w cl : ℤ) (cd : CoilData) :
    (buildTurbine h w cl cd).active = true := by
  simp [buildTurbine, zeroTurbine, Turbine.Reset, Turbine.Resize, Turbine.SetFullCoil,
    Turbine.SetRotorConfiguration, Turbine.UpdateInternalValues, Turbine.SetNominalFlowRate,
    apply_ite Turbine.active]

lemma buildTurbine_coilEngaged (h w cl : ℤ) (cd : CoilData) :
    (buildTurbine h w cl cd).coilEngaged = true := by
  simp [buildTurbine, zeroTurbine, Turbine.Reset, Turbine.Resize, Turbine.SetFullCoil,
    Turbine.SetRotorConfiguration, Turbine.UpdateInternalValues, Turbine.SetNominalFlowRate,
    apply_ite Turbine.coilEngaged]

lemma buildTurbine_rotorEnergy (h w cl : ℤ) (cd : CoilData) :
    (buildTurbine h w cl cd).rotorEnergy = 0 := by
  simp [buildTurbine, zeroTurbine, Turbine.Reset, Turbine.Resize, Turbine.SetFullCoil,
    Turbine.SetRotorConfiguration, Turbine.UpdateInternalValues, Turbine.SetNominalFlowRate,
    apply_ite Turbine.rotorEnergy]

lemma buildTurbine_maxMax (h w cl : ℤ) (cd : CoilData) :
    (buildTurbine h w cl cd).maxMaxFlowRate = ((w - 2) * (w - 2) - 1) * FlowRatePerBlock := by
  simp [buildTurbine, zeroTurbine, Turbine.Reset, Turbine.Resize, Turbine.SetFullCoil,
    Turbine.SetRotorConfiguration, Turbine.UpdateInternalValues, Turbine.SetNominalFlowRate,
    apply_ite Turbine.maxMaxFlowRate]

lemma buildTurbine_maxFlow (h w cl : ℤ) (cd : CoilData) :
    (buildTurbine h w cl cd).maxFlowRate =
      min (((w - 2) * (w - 2) - 1) * FlowRatePerBlock) 0 := by
  simp [buildTurbine, zeroTurbine, Turbine.Reset, Turbine.Resize, Turbine.SetFullCoil,
    Turbine.SetRotorConfiguration, Turbine.UpdateInternalValues, Turbine.SetNominalFlowRate,
    apply_ite Turbine.maxFlowRate, apply_ite Turbine.maxMaxFlowRate]

lemma buildTurbine_rotorShafts (h w cl : ℤ) (cd : CoilData) :
    (buildTurbine h w cl cd).rotorShafts = ((h - 2 - cl).toNat : ℤ) + (cl.toNat : ℤ) := by
  simp [buildTurbine, zeroTurbine, Turbine.Reset, Turbine.Resize, Turbine.SetFullCoil,
    Turbine.SetRotorConfiguration, Turbine.UpdateInternalValues, Turbine.SetNominalFlowRate,
    apply_ite Turbine.rotorShafts]

lemma buildTurbine_rcp (h w cl : ℤ) (cd : CoilData) :
    (buildTurbine h w cl cd).rotorCapacityPerRPM =
      (buildTurbine h w cl cd).linearBladeMetersPerRevolution *
        FluidPerBladeLinerKilometre / 1000 * (2 * Real.pi) := by
  simp [buildTurbine, zeroTurbine, Turbine.Reset, Turbine.Resize, Turbine.SetFullCoil,
    Turbine.SetRotorConfiguration, Turbine.UpdateInternalValues, Turbine.SetNominalFlowRate,
    apply_ite Turbine.rotorCapacityPerRPM, apply_ite Turbine.linearBladeMetersPerRevolution]

lemma buildTurbine_axialMass (h w cl : ℤ) (cd : CoilData) :
    (buildTurbine h w cl cd).rotorAxialMass =
      ((buildTurbine h w cl cd).rotorShafts : ℝ) * RotorAxialMassPerShaft +
        (buildTurbine h w cl cd).linearBladeMetersPerRevolution * RotorAxialMassPerBlade := by
  rw [buildTurbine_rotorShafts, buildTurbine_lbl]
  simp [buildTurbine, zeroTurbine, Turbine.Reset, Turbine.Resize, Turbine.SetFullCoil,
    Turbine.SetRotorConfiguration, Turbine.UpdateInternalValues, Turbine.SetNominalFlowRate,
    apply_ite Turbine.rotorAxialMass]
  left
  norm_num [sumRangeFromZero]
  ring

lemma buildTurbine_rotorMass (h w cl : ℤ) (cd : CoilData) :
    (buildTurbine h w cl cd).rotorMass =
      (((h - 2 - cl).toNat : ℕ) : ℝ) * (4 * (((w - 2) / 2 : ℤ) : ℝ)) * RotorAxialMassPerBlade +
        ((((h - 2 - cl).toNat : ℤ) + (cl.toNat : ℤ) : ℤ) : ℝ) * RotorAxialMassPerShaft := by
  simp [buildTurbine, zeroTurbine, Turbine.Reset, Turbine.Resize, Turbine.SetFullCoil,
    Turbine.SetRotorConfiguration, Turbine.UpdateInternalValues, Turbine.SetNominalFlowRate,
    apply_ite Turbine.rotorMass]
  left
  ring

/-- Derived positivity and flag facts about every successfully constructed
turbine, used across the claims. -/
lemma NewTurbine_ok_facts {h w cl : ℤ} {cd : CoilData} {t : Turbine}
    (hok : NewTurbine h w cl cd = Except.ok t) :
    t.active = true ∧ t.coilEngaged = true ∧ t.rotorEnergy = 0 ∧
      t.maxMaxFlowRate = ((w - 2) * (w - 2) - 1) * FlowRatePerBlock ∧
      0 ≤ t.maxMaxFlowRate ∧ t.maxFlowRate = 0 ∧
      0 < t.linearBladeMetersPerRevolution ∧ 0 < t.rotorCapacityPerRPM ∧
      0 < t.rotorMass ∧ 0 < t.rotorAxialMass := by
  obtain ⟨hodd, hcl2, hh, hw, hcl1, rfl⟩ := NewTurbine_ok_iff.mp hok
  have hn1 : 1 ≤ ((h - 2 - cl).toNat : ℤ) := by omega
  have hbl : 1 ≤ (w - 2) / 2 := by omega
  have hT : 1 ≤ sumRangeFromZero ((w - 2) / 2) := by
    unfold sumRangeFromZero
    have h2 : 2 ≤ ((w - 2) / 2 + 1) * ((w - 2) / 2) := by nlinarith
    omega
  have hn1R : (1 : ℝ) ≤ (((h - 2 - cl).toNat : ℕ) : ℝ) := by exact_mod_cast hn1
  have hTR : (1 : ℝ) ≤ ((sumRangeFromZero ((w - 2) / 2) : ℤ) : ℝ) := by exact_mod_cast hT
  have hlbl : 0 < (buildTurbine h w cl cd).linearBladeMetersPerRevolution := by
    rw [buildTurbine_lbl]
    nlinarith
  have hM : 0 ≤ ((w - 2) * (w - 2) - 1) * FlowRatePerBlock := by
    have h3 : 3 ≤ w - 2 := by omega
    have h9 : 9 ≤ (w - 2) * (w - 2) := by nlinarith
    unfold FlowRatePerBlock
    nlinarith
  have hshafts : (1 : ℝ) ≤ (((buildTurbine h w cl cd).rotorShafts : ℤ) : ℝ) := by
    rw [buildTurbine_rotorShafts]
    have : 1 ≤ ((h - 2 - cl).toNat : ℤ) + (cl.toNat : ℤ) := by omega
    exact_mod_cast this
  refine ⟨buildTurbine_active h w cl cd, buildTurbine_coilEngaged h w cl cd,
    buildTurbine_rotorEnergy h w cl cd, buildTurbine_maxMax h w cl cd, ?_, ?_, hlbl, ?_, ?_, ?_⟩
  · rw [buildTurbine_maxMax]; exact hM
  · rw [buildTurbine_maxFlow]; omega
  · rw [buildTurbine_rcp]
    have hpi : 0 < Real.pi := Real.pi_pos
    unfold FluidPerBladeLinerKilometre
    positivity
  · rw [buildTurbine_rotorMass]
    have hblR : (1 : ℝ) ≤ (((w - 2) / 2 : ℤ) : ℝ) := by exact_mod_cast hbl
    have hclR : (0 : ℝ) ≤ ((cl.toNat : ℤ) : ℝ) := by positivity
    unfold RotorAxialMassPerBlade RotorAxialMassPerShaft
    push_cast
    nlinarith [hn1R, hblR]
  · rw [buildTurbine_axialMass]
    unfold RotorAxialMassPerBlade RotorAxialMassPerShaft
    nlinarith [hshafts, hlbl]

end

noncomputable section

/-- Projections of SetNominalFlowRate: only maxFlowRate changes. -/
lemma setNominal_maxFlowRate (t : Turbine) (v : ℤ) :
    (t.SetNominalFlowRate v).maxFlowRate = min t.maxMaxFlowRate (max 0 v) := rfl

lemma setNominal_active (t : Turbine) (v : ℤ) :
    (t.SetNominalFlowRate v).active = t.active := rfl

lemma setNominal_coilEngaged (t : Turbine) (v : ℤ) :
    (t.SetNominalFlowRate v).coilEngaged = t.coilEngaged := rfl

lemma setNominal_maxMax (t : Turbine) (v : ℤ) :
    (t.SetNominalFlowRate v).maxMaxFlowRate = t.maxMaxFlowRate := rfl

lemma setNominal_rcp (t : Turbine) (v : ℤ) :
    (t.SetNominalFlowRate v).rotorCapacityPerRPM = t.rotorCapacityPerRPM := rfl

lemma setNominal_lbl (t : Turbine) (v : ℤ) :
    (t.SetNominalFlowRate v).linearBladeMetersPerRevolution =
      t.linearBladeMetersPerRevolution := rfl

lemma setNominal_rotorMass (t : Turbine) (v : ℤ) :
    (t.SetNominalFlowRate v).rotorMass = t.rotorMass := rfl

lemma setNominal_axialMass (t : Turbine) (v : ℤ) :
    (t.SetNominalFlowRate v).rotorAxialMass = t.rotorAxialMass := rfl

lemma setNominal_rotorEnergy (t : Turbine) (v : ℤ) :
    (t.SetNominalFlowRate v).rotorEnergy = t.rotorEnergy := rfl

/-- The concrete smallest valid turbine, used as a witness input. -/
def turbine451 : Turbine := buildTurbine 4 5 1 ironCoil

/-- C3: NewTurbine returns a fully initialized model exactly when the
width is odd, the height is at least 4, the width is at least 5 and the
coil layer count lies between 1 and height minus 3; otherwise it returns
the error tagged for the violated condition, the conditions being checked
in source order, and no model. -/
theorem C3_newTurbine_validation (h w cl : ℤ) (cd : CoilData) :
    ((∃ t, NewTurbine h w cl cd = Except.ok t) ↔
      ¬(w % 2 = 0) ∧ 4 ≤ h ∧ 5 ≤ w ∧ 1 ≤ cl ∧ cl ≤ h - 3) ∧
    (w % 2 = 0 → NewTurbine h w cl cd = Except.error GeometryError.WidthMustBeOdd) ∧
    (¬(w % 2 = 0) → h - 3 < cl →
      NewTurbine h w cl cd = Except.error GeometryError.TooManyCoilLayers) ∧
    (¬(w % 2 = 0) → cl ≤ h - 3 → (h < 4 ∨ w < 5) →
      NewTurbine h w cl cd = Except.error GeometryError.TooSmall) ∧
    (¬(w % 2 = 0) → cl ≤ h - 3 → 4 ≤ h → 5 ≤ w → cl < 1 →
      NewTurbine h w cl cd = Except.error GeometryError.NoCoilLayers) := by
  refine ⟨?_, ?_, ?_, ?_, ?_⟩
  · constructor
    · rintro ⟨t, ht⟩
      obtain ⟨h1, h2, h3, h4, h5, -⟩ := NewTurbine_ok_iff.mp ht
      exact ⟨h1, h3, h4, h5, h2⟩
    · rintro ⟨h1, h2, h3, h4, h5⟩
      exact ⟨buildTurbine h w cl cd, NewTurbine_ok_iff.mpr ⟨h1, h5, h2, h3, h4, rfl⟩⟩
  · intro h1
    unfold NewTurbine
    rw [if_pos h1]
  · intro h1 h2
    unfold NewTurbine
    rw [if_neg h1, if_pos h2]
  · intro h1 h2 h3
    unfold NewTurbine
    rw [if_neg h1, if_neg (by omega), if_pos h3]
  · intro h1 h2 h3 h4 h5
    unfold NewTurbine
    rw [if_neg h1, if_neg (by omega), if_neg (by omega), if_pos h5]

/-- Witness for C3 at concrete inputs: one instance of each error tag and
one successful construction. -/
theorem C3_newTurbine_validation_witness :
    NewTurbine 4 4 1 ironCoil = Except.error GeometryError.WidthMustBeOdd ∧
    NewTurbine 4 5 2 ironCoil = Except.error GeometryError.TooManyCoilLayers ∧
    NewTurbine 3 5 0 ironCoil = Except.error GeometryError.TooSmall ∧
    NewTurbine 4 5 0 ironCoil = Except.error GeometryError.NoCoilLayers ∧
    (∃ t, NewTurbine 4 5 1 ironCoil = Except.ok t) := by
  refine ⟨(C3_newTurbine_validation 4 4 1 ironCoil).2.1 (by decide),
    (C3_newTurbine_validation 4 5 2 ironCoil).2.2.1 (by decide) (by decide),
    (C3_newTurbine_validation 3 5 0 ironCoil).2.2.2.1 (by decide) (by decide) (by decide),
    (C3_newTurbine_validation 4 5 0 ironCoil).2.2.2.2 (by decide) (by decide) (by decide)
      (by decide) (by decide),
    (C3_newTurbine_validation 4 5 1 ironCoil).1.mpr (by decide)⟩

/-- C7: for every constructed turbine and every integer v, including
negative and over-maximum values, SetNominalFlowRate stores exactly the
clamp of v into the interval from 0 to the maximum flow rate, which
equals (interiorWidth * interiorDepth - 1) * FlowRatePerBlock with the
interior dimensions equal to the outer ones minus 2. -/
theorem C7_setNominalFlowRate_clamp (h w cl : ℤ) (cd : CoilData) (t : Turbine)
    (hok : NewTurbine h w cl cd = Except.ok t) (v : ℤ) :
    t.maxMaxFlowRate = ((w - 2) * (w - 2) - 1) * FlowRatePerBlock ∧
    (t.SetNominalFlowRate v).maxFlowRate =
      max 0 (min v (((w - 2) * (w - 2) - 1) * FlowRatePerBlock)) := by
  obtain ⟨-, -, -, hmax, hM, -, -, -, -, -⟩ := NewTurbine_ok_facts hok
  refine ⟨hmax, ?_⟩
  rw [setNominal_maxFlowRate, hmax]
  rw [hmax] at hM
  generalize (((w - 2) * (w - 2) - 1) * FlowRatePerBlock) = M at hM ⊢
  omega

/-- Witness for C7: the smallest valid turbine with a negative and an
over-maximum request. -/
theorem C7_setNominalFlowRate_clamp_witness :
    (turbine451.SetNominalFlowRate (-7)).maxFlowRate =
      max 0 (min (-7) (((5 - 2) * (5 - 2) - 1) * FlowRatePerBlock)) ∧
    (turbine451.SetNominalFlowRate 99999999).maxFlowRate =
      max 0 (min 99999999 (((5 - 2) * (5 - 2) - 1) * FlowRatePerBlock)) :=
  ⟨(C7_setNominalFlowRate_clamp 4 5 1 ironCoil turbine451 rfl (-7)).2,
   (C7_setNominalFlowRate_clamp 4 5 1 ironCoil turbine451 rfl 99999999).2⟩

end

noncomputable section

/-- Tick never leaves negative rotor energy: the final clamp. -/
lemma Tick_rotorEnergy_nonneg (t : Turbine) : 0 ≤ t.Tick.rotorEnergy := by
  simp only [Turbine.Tick]
  split_ifs with h1 <;> simp_all

/-- Tick does not change the rotor axial mass. -/
lemma Tick_rotorAxialMass (t : Turbine) : t.Tick.rotorAxialMass = t.rotorAxialMass := by
  simp [Turbine.Tick, apply_ite Turbine.rotorAxialMass]

lemma peakRPM_pos : (0 : ℝ) < peakRPM := by
  norm_num [peakRPM, EffectiveGridFrequency]

lemma two_le_MinEfficiencyScale : (2 : ℝ) ≤ MinEfficiencyScale := by
  unfold MinEfficiencyScale EfficiencyPeaks
  calc (2 : ℝ) = (2 : ℝ) ^ (1 : ℝ) := (Real.rpow_one 2).symm
  _ ≤ (2 : ℝ) ^ ((2 : ℝ) - 0.5) := by
      apply Real.rpow_le_rpow_of_exponent_le one_le_two
      norm_num

lemma MinEfficiencyScale_pos : (0 : ℝ) < MinEfficiencyScale := by
  linarith [two_le_MinEfficiencyScale]

lemma minRPM_lt_peakRPM : minRPM < peakRPM := by
  unfold minRPM
  have h1 : (1 : ℝ) < MinEfficiencyScale := by linarith [two_le_MinEfficiencyScale]
  exact div_lt_self peakRPM_pos h1

lemma log2_ne_zero : log2 ≠ 0 := by
  unfold log2
  exact ne_of_gt (Real.log_pos one_lt_two)

lemma log_minRPM : Real.log minRPM = logPeakRPM - 3 / 2 * log2 := by
  unfold minRPM logPeakRPM peakRPM log2 MinEfficiencyScale EfficiencyPeaks
  rw [Real.log_div (by norm_num [EffectiveGridFrequency]) (by positivity)]
  rw [Real.log_rpow two_pos]
  norm_num

lemma cos_four_pi : Real.cos (4 * Real.pi) = 1 := by
  rw [show (4 : ℝ) * Real.pi = ((2 : ℤ) : ℝ) * (2 * Real.pi) by push_cast; ring]
  exact Real.cos_int_mul_two_pi 2

lemma coilEfficiencyMid_at_min : coilEfficiencyMid minRPM = 0.5 := by
  unfold coilEfficiencyMid
  rw [log_minRPM]
  have h1 : (logPeakRPM - 3 / 2 * log2 - logPeakRPM) / log2 = -(3 / 2) := by
    field_simp [log2_ne_zero]
    ring
  rw [h1]
  norm_num
  rw [cos_four_pi]
  norm_num

lemma coilEfficiencyMid_at_peak : coilEfficiencyMid peakRPM = 1 := by
  unfold coilEfficiencyMid peakRPM logPeakRPM
  rw [sub_self, zero_div]
  norm_num [Real.cos_pi]

lemma coilEfficiencyHigh_at_peak : coilEfficiencyHigh peakRPM = 1 := by
  unfold coilEfficiencyHigh
  norm_num

end

noncomputable section

/-- C5: for every prior state with non-negative rotor energy and any
non-negative nominal flow rate, Tick leaves the rotor energy non-negative
(the update clamps it at zero at the end). -/
theorem C5_tick_clamps_energy (t : Turbine) (_h1 : 0 ≤ t.rotorEnergy)
    (_h2 : 0 ≤ t.maxFlowRate) : 0 ≤ t.Tick.rotorEnergy :=
  Tick_rotorEnergy_nonneg t

/-- Witness for C5 at the smallest valid turbine. -/
theorem C5_tick_clamps_energy_witness :
    0 ≤ turbine451.rotorEnergy ∧ 0 ≤ turbine451.maxFlowRate ∧
      0 ≤ turbine451.Tick.rotorEnergy :=
  ⟨le_of_eq (buildTurbine_rotorEnergy 4 5 1 ironCoil).symm, by decide,
   C5_tick_clamps_energy turbine451
     (le_of_eq (buildTurbine_rotorEnergy 4 5 1 ironCoil).symm) (by decide)⟩

/-- C8: the three-regime coil efficiency curve is continuous at both branch
boundaries: the log-periodic middle formula evaluates to the 0.5 floor at
minRPM, and both the middle formula and the parabolic falloff evaluate to
1 at peakRPM; the selected branch at each boundary agrees. -/
theorem C8_coilEfficiency_continuity :
    coilEfficiencyMid minRPM = 0.5 ∧ coilEfficiencyMid peakRPM = 1 ∧
    coilEfficiencyHigh peakRPM = 1 ∧
    coilEfficiency minRPM = 0.5 ∧ coilEfficiency peakRPM = 1 := by
  refine ⟨coilEfficiencyMid_at_min, coilEfficiencyMid_at_peak,
    coilEfficiencyHigh_at_peak, ?_, ?_⟩
  · unfold coilEfficiency
    rw [if_neg (lt_irrefl minRPM),
      if_neg (not_lt.mpr (le_of_lt minRPM_lt_peakRPM))]
    exact coilEfficiencyMid_at_min
  · unfold coilEfficiency
    rw [if_neg (not_lt.mpr (le_of_lt minRPM_lt_peakRPM)),
      if_neg (lt_irrefl peakRPM)]
    exact coilEfficiencyMid_at_peak

end

noncomputable section

/-- The states reachable from a successful construction through the public
mutators: setting a nominal flow rate, setting the energy for a
non-negative target RPM, and ticking. -/
inductive Reachable : Turbine → Prop where
  | constructed (h w cl : ℤ) (cd : CoilData) (t : Turbine) :
      NewTurbine h w cl cd = Except.ok t → Reachable t
  | setFlow (t : Turbine) (v : ℤ) : Reachable t → Reachable (t.SetNominalFlowRate v)
  | setEnergy (t : Turbine) (r : ℝ) : 0 ≤ r → Reachable t →
      Reachable (t.SetEnergyForRPM r)
  | tick (t : Turbine) : Reachable t → Reachable t.Tick

/-- The reachability invariant behind C6: non-negative rotor energy and a
strictly positive rotor axial mass. -/
lemma reachable_invariant {t : Turbine} (hr : Reachable t) :
    0 ≤ t.rotorEnergy ∧ 0 < t.rotorAxialMass := by
  induction hr with
  | constructed h w cl cd t hok =>
      obtain ⟨-, -, he, -, -, -, -, -, -, hmass⟩ := NewTurbine_ok_facts hok
      exact ⟨le_of_eq he.symm, hmass⟩
  | setFlow t v hr ih => exact ih
  | setEnergy t r hrpos hr ih =>
      exact ⟨mul_nonneg (le_of_lt ih.2) hrpos, ih.2⟩
  | tick t hr ih =>
      exact ⟨Tick_rotorEnergy_nonneg t, by rw [Tick_rotorAxialMass]; exact ih.2⟩

/-- C6: in every reachable state the reported RPM is exactly the rotor
energy divided by the rotor axial mass, the divisor is strictly positive,
and the quotient is non-negative. -/
theorem C6_rpm_invariant (t : Turbine) (hr : Reachable t) :
    t.RPM = t.rotorEnergy / t.rotorAxialMass ∧ 0 ≤ t.RPM ∧
      0 < t.rotorAxialMass := by
  obtain ⟨he, hm⟩ := reachable_invariant hr
  exact ⟨rfl, div_nonneg he (le_of_lt hm), hm⟩

/-- Witness for C6 at the smallest valid turbine, freshly constructed. -/
theorem C6_rpm_invariant_witness :
    turbine451.RPM = turbine451.rotorEnergy / turbine451.rotorAxialMass ∧
      0 ≤ turbine451.RPM ∧ 0 < turbine451.rotorAxialMass :=
  C6_rpm_invariant turbine451 (Reachable.constructed 4 5 1 ironCoil turbine451 rfl)

end

noncomputable section

/-- C9: when the candidate sequence contributes nothing (in particular
when the constraint rejects every candidate, or when the geometry ranges
are empty) no candidate ever beats the negative-infinity sentinel, and
findOptimalTurbine returns the zero turbine, the designated well-defined
default. -/
theorem C9_no_solution_default (fitness : Turbine → ℝ) (coilType : CoilData)
    (flowSetting : FlowSetting) (maxSize : Size) :
    (∀ constraint : Turbine → Bool,
      evalCandidates constraint coilType flowSetting maxSize = [] →
      findOptimalTurbine fitness constraint coilType flowSetting maxSize = zeroTurbine) ∧
    evalCandidates (fun _ => false) coilType flowSetting maxSize = [] ∧
    findOptimalTurbine fitness (fun _ => false) coilType flowSetting maxSize =
      zeroTurbine := by
  have hfold : ∀ constraint : Turbine → Bool,
      evalCandidates constraint coilType flowSetting maxSize = [] →
      findOptimalTurbine fitness constraint coilType flowSetting maxSize = zeroTurbine := by
    intro c hc
    unfold findOptimalTurbine
    rw [hc]
    rfl
  have hempty : evalCandidates (fun _ => false) coilType flowSetting maxSize = [] := by
    unfold evalCandidates
    refine List.flatMap_eq_nil_iff.mpr ?_
    intro hgt hmem
    refine List.flatMap_eq_nil_iff.mpr ?_
    intro wd hwd
    refine List.flatMap_eq_nil_iff.mpr ?_
    intro cl hcl
    cases hNT : NewTurbine hgt wd cl coilType with
    | error e => rfl
    | ok t => simp
  exact ⟨hfold, hempty, hfold _ hempty⟩

/-- Witness for C9: an empty geometry range and an always-false constraint
both yield the zero turbine. -/
theorem C9_no_solution_default_witness :
    findOptimalTurbine (fun t => t.energyGeneratedLastTick) (fun _ => true) ironCoil
      ⟨FlowSettingVariant.UseMaxFlow, 0⟩ ⟨0, 0, 0⟩ = zeroTurbine ∧
    findOptimalTurbine (fun t => t.energyGeneratedLastTick) (fun _ => false) ironCoil
      ⟨FlowSettingVariant.UseMaxFlow, 0⟩ ⟨5, 4, 5⟩ = zeroTurbine :=
  ⟨(C9_no_solution_default (fun t => t.energyGeneratedLastTick) ironCoil
      ⟨FlowSettingVariant.UseMaxFlow, 0⟩ ⟨0, 0, 0⟩).1 (fun _ => true) rfl,
   (C9_no_solution_default (fun t => t.energyGeneratedLastTick) ironCoil
      ⟨FlowSettingVariant.UseMaxFlow, 0⟩ ⟨5, 4, 5⟩).2.2⟩

/-- C10: the FindBestFlow candidate loop terminates for every step of at
least 1 (and produces no candidate when the step exceeds the maximum flow
rate), while for step 0 the loop guard holds at every iteration whenever
the maximum flow rate is non-negative, which is the case for every
constructible turbine: the loop never exits, so the search never
returns. -/
theorem C10_stepUntilMax_termination (v : ℤ) (t : Turbine) :
    (1 ≤ v → ∃ k : ℕ, ¬ flowLoopGuard v t.maxMaxFlowRate k) ∧
    (1 ≤ v → t.maxMaxFlowRate < v →
      flowRatesFor ⟨FlowSettingVariant.FindBestFlow, v⟩ t = []) ∧
    (0 ≤ t.maxMaxFlowRate → ∀ k : ℕ, flowLoopGuard 0 t.maxMaxFlowRate k) ∧
    (∀ (h w cl : ℤ) (cd : CoilData) (t2 : Turbine),
      NewTurbine h w cl cd = Except.ok t2 → 0 ≤ t2.maxMaxFlowRate) := by
  refine ⟨?_, ?_, ?_, ?_⟩
  · intro hv
    refine ⟨t.maxMaxFlowRate.toNat, ?_⟩
    unfold flowLoopGuard
    have h1 : t.maxMaxFlowRate + 1 ≤ ((t.maxMaxFlowRate.toNat : ℤ)) + 1 := by omega
    intro hcontra
    nlinarith
  · intro hv hlt
    show (if 1 ≤ v then intRangeStep v t.maxMaxFlowRate v else []) = []
    rw [if_pos hv]
    unfold intRangeStep
    rw [if_neg (by omega)]
  · intro hm k
    unfold flowLoopGuard
    omega
  · intro h w cl cd t2 hok
    exact (NewTurbine_ok_facts hok).2.2.2.2.1

/-- Witness for C10: step 1 exits on the zero turbine, step 1 exceeds its
zero maximum so no candidate is produced, step 0 never exits, and the
smallest valid turbine shows the non-negative maximum is reachable. -/
theorem C10_stepUntilMax_termination_witness :
    (∃ k : ℕ, ¬ flowLoopGuard 1 zeroTurbine.maxMaxFlowRate k) ∧
    flowRatesFor ⟨FlowSettingVariant.FindBestFlow, 1⟩ zeroTurbine = [] ∧
    (∀ k : ℕ, flowLoopGuard 0 zeroTurbine.maxMaxFlowRate k) ∧
    0 ≤ turbine451.maxMaxFlowRate :=
  ⟨(C10_stepUntilMax_termination 1 zeroTurbine).1 (by decide),
   (C10_stepUntilMax_termination 1 zeroTurbine).2.1 (by decide) (by decide),
   (C10_stepUntilMax_termination 0 zeroTurbine).2.2.1 (by decide),
   (C10_stepUntilMax_termination 0 zeroTurbine).2.2.2 4 5 1 ironCoil turbine451 rfl⟩

end

noncomputable section

/-- Specification of folding the best-candidate update from a state that
already holds a best fitness b0: either no candidate strictly beats b0
and the state is unchanged, or the fold ends at the first candidate
holding the maximum fitness of the list, which strictly beats b0 and
every earlier candidate and weakly beats every candidate. -/
lemma foldl_bestStep_spec (f : Turbine → ℝ) :
    ∀ (L : List Turbine) (t0 : Turbine) (b0 : ℝ),
      (L.foldl (bestStep f) (t0, some b0) = (t0, some b0) ∧ ∀ x ∈ L, f x ≤ b0) ∨
      ∃ i : Fin L.length,
        L.foldl (bestStep f) (t0, some b0) = (L.get i, some (f (L.get i))) ∧
        b0 < f (L.get i) ∧
        (∀ j : Fin L.length, (j : ℕ) < (i : ℕ) → f (L.get j) < f (L.get i)) ∧
        (∀ j : Fin L.length, f (L.get j) ≤ f (L.get i)) := by
  intro L
  induction L with
  | nil =>
      intro t0 b0
      left
      exact ⟨rfl, by simp⟩
  | cons a L ih =>
      intro t0 b0
      rw [List.foldl_cons]
      by_cases hfa : f a > b0
      · have hstep : bestStep f (t0, some b0) a = (a, some (f a)) := by
          show (if f a > b0 then (a, some (f a)) else (t0, some b0)) = (a, some (f a))
          rw [if_pos hfa]
        rw [hstep]
        rcases ih a (f a) with ⟨heq, hall⟩ | ⟨i, heq, hlt, hstrict, hall⟩
        · right
          refine ⟨⟨0, by simp⟩, by rw [heq]; rfl, hfa, ?_, ?_⟩
          · intro j hj
            exact absurd hj (Nat.not_lt_zero _)
          · intro j
            match j with
            | ⟨0, h0⟩ => exact le_refl _
            | ⟨k + 1, hk⟩ =>
                exact hall (L.get ⟨k, Nat.lt_of_succ_lt_succ hk⟩) (List.get_mem L k _)
        · right
          refine ⟨⟨i.1 + 1, Nat.succ_lt_succ i.2⟩, ?_, lt_trans hfa hlt, ?_, ?_⟩
          · rw [heq]; rfl
          · intro j hj
            match j with
            | ⟨0, h0⟩ => exact hlt
            | ⟨k + 1, hk⟩ =>
                exact hstrict ⟨k, Nat.lt_of_succ_lt_succ hk⟩ (Nat.lt_of_succ_lt_succ hj)
          · intro j
            match j with
            | ⟨0, h0⟩ => exact le_of_lt hlt
            | ⟨k + 1, hk⟩ => exact hall ⟨k, Nat.lt_of_succ_lt_succ hk⟩
      · have hstep : bestStep f (t0, some b0) a = (t0, some b0) := by
          show (if f a > b0 then (a, some (f a)) else (t0, some b0)) = (t0, some b0)
          rw [if_neg hfa]
        rw [hstep]
        have hfa2 : f a ≤ b0 := not_lt.mp hfa
        rcases ih t0 b0 with ⟨heq, hall⟩ | ⟨i, heq, hlt, hstrict, hall⟩
        · left
          refine ⟨heq, ?_⟩
          intro x hx
          rcases List.mem_cons.mp hx with rfl | hx2
          · exact hfa2
          · exact hall x hx2
        · right
          refine ⟨⟨i.1 + 1, Nat.succ_lt_succ i.2⟩, ?_, hlt, ?_, ?_⟩
          · rw [heq]; rfl
          · intro j hj
            match j with
            | ⟨0, h0⟩ => exact lt_of_le_of_lt hfa2 hlt
            | ⟨k + 1, hk⟩ =>
                exact hstrict ⟨k, Nat.lt_of_succ_lt_succ hk⟩ (Nat.lt_of_succ_lt_succ hj)
          · intro j
            match j with
            | ⟨0, h0⟩ => exact le_trans hfa2 (le_of_lt hlt)
            | ⟨k + 1, hk⟩ => exact hall ⟨k, Nat.lt_of_succ_lt_succ hk⟩

/-- The fold of the best-candidate update from the sentinel state returns
the first maximizer of the fitness over a nonempty list. -/
lemma foldl_bestStep_firstMax (f : Turbine → ℝ) (L : List Turbine) (hL : L ≠ [])
    (t0 : Turbine) :
    ∃ i : Fin L.length,
      (L.foldl (bestStep f) (t0, none)).1 = L.get i ∧
      (∀ j : Fin L.length, (j : ℕ) < (i : ℕ) → f (L.get j) < f (L.get i)) ∧
      (∀ j : Fin L.length, f (L.get j) ≤ f (L.get i)) := by
  match L, hL with
  | a :: L, _ =>
    rw [List.foldl_cons]
    have hstep : bestStep f (t0, none) a = (a, some (f a)) := rfl
    rw [hstep]
    rcases foldl_bestStep_spec f L a (f a) with ⟨heq, hall⟩ | ⟨i, heq, hlt, hstrict, hall⟩
    · refine ⟨⟨0, by simp⟩, by rw [heq]; rfl, ?_, ?_⟩
      · intro j hj
        exact absurd hj (Nat.not_lt_zero _)
      · intro j
        match j with
        | ⟨0, h0⟩ => exact le_refl _
        | ⟨k + 1, hk⟩ =>
            exact hall (L.get ⟨k, Nat.lt_of_succ_lt_succ hk⟩) (List.get_mem L k _)
    · refine ⟨⟨i.1 + 1, Nat.succ_lt_succ i.2⟩, by rw [heq]; rfl, ?_, ?_⟩
      · intro j hj
        match j with
        | ⟨0, h0⟩ => exact hlt
        | ⟨k + 1, hk⟩ =>
            exact hstrict ⟨k, Nat.lt_of_succ_lt_succ hk⟩ (Nat.lt_of_succ_lt_succ hj)
      · intro j
        match j with
        | ⟨0, h0⟩ => exact le_of_lt hlt
        | ⟨k + 1, hk⟩ => exact hall ⟨k, Nat.lt_of_succ_lt_succ hk⟩

/-- C4: over the candidate sequence enumerated in the source order (height
ascending step 1 from 4, width ascending step 2 from 5, coil layers
ascending from 1 to height minus 3, then flow candidates), the search
returns the first candidate whose fitness strictly exceeds the fitness of
every earlier candidate and is never exceeded later; equal fitness keeps
the earlier candidate, so the search result is a deterministic function of
its inputs. -/
theorem C4_search_first_max (fitness : Turbine → ℝ) (constraint : Turbine → Bool)
    (coilType : CoilData) (flowSetting : FlowSetting) (maxSize : Size)
    (hne : evalCandidates constraint coilType flowSetting maxSize ≠ []) :
    ∃ i : Fin (evalCandidates constraint coilType flowSetting maxSize).length,
      findOptimalTurbine fitness constraint coilType flowSetting maxSize =
        (evalCandidates constraint coilType flowSetting maxSize).get i ∧
      (∀ j : Fin (evalCandidates constraint coilType flowSetting maxSize).length,
        (j : ℕ) < (i : ℕ) →
        fitness ((evalCandidates constraint coilType flowSetting maxSize).get j) <
          fitness ((evalCandidates constraint coilType flowSetting maxSize).get i)) ∧
      (∀ j : Fin (evalCandidates constraint coilType flowSetting maxSize).length,
        fitness ((evalCandidates constraint coilType flowSetting maxSize).get j) ≤
          fitness ((evalCandidates constraint coilType flowSetting maxSize).get i)) :=
  foldl_bestStep_firstMax fitness _ hne zeroTurbine

/-- Witness for C4: a singleton candidate space. -/
theorem C4_search_first_max_witness :
    ∃ i : Fin (evalCandidates (fun _ => true) ironCoil
        ⟨FlowSettingVariant.UseMaxFlow, 0⟩ ⟨5, 4, 5⟩).length,
      findOptimalTurbine (fun t => t.energyGeneratedLastTick) (fun _ => true) ironCoil
        ⟨FlowSettingVariant.UseMaxFlow, 0⟩ ⟨5, 4, 5⟩ =
        (evalCandidates (fun _ => true) ironCoil
          ⟨FlowSettingVariant.UseMaxFlow, 0⟩ ⟨5, 4, 5⟩).get i ∧
      (∀ j : Fin (evalCandidates (fun _ => true) ironCoil
          ⟨FlowSettingVariant.UseMaxFlow, 0⟩ ⟨5, 4, 5⟩).length,
        (j : ℕ) < (i : ℕ) →
        (fun t : Turbine => t.energyGeneratedLastTick) ((evalCandidates (fun _ => true) ironCoil
          ⟨FlowSettingVariant.UseMaxFlow, 0⟩ ⟨5, 4, 5⟩).get j) <
          (fun t : Turbine => t.energyGeneratedLastTick) ((evalCandidates (fun _ => true) ironCoil
          ⟨FlowSettingVariant.UseMaxFlow, 0⟩ ⟨5, 4, 5⟩).get i)) ∧
      (∀ j : Fin (evalCandidates (fun _ => true) ironCoil
          ⟨FlowSettingVariant.UseMaxFlow, 0⟩ ⟨5, 4, 5⟩).length,
        (fun t : Turbine => t.energyGeneratedLastTick) ((evalCandidates (fun _ => true) ironCoil
          ⟨FlowSettingVariant.UseMaxFlow, 0⟩ ⟨5, 4, 5⟩).get j) ≤
          (fun t : Turbine => t.energyGeneratedLastTick) ((evalCandidates (fun _ => true) ironCoil
          ⟨FlowSettingVariant.UseMaxFlow, 0⟩ ⟨5, 4, 5⟩).get i)) :=
  C4_search_first_max (fun t => t.energyGeneratedLastTick) (fun _ => true) ironCoil
    ⟨FlowSettingVariant.UseMaxFlow, 0⟩ ⟨5, 4, 5⟩
    (by intro hE; exact absurd (congrArg List.length hE) (by decide))

end

noncomputable section

lemma quad_disc_nonneg (a b c : ℝ) (ha : 0 < a) (hc : c ≤ 0) :
    0 ≤ b * b - 4 * a * c := by nlinarith

lemma sqrt_disc_ge_abs_b (a b c : ℝ) (ha : 0 < a) (hc : c ≤ 0) :
    |b| ≤ Real.sqrt (b * b - 4 * a * c) := by
  have h1 : Real.sqrt (b ^ 2) ≤ Real.sqrt (b * b - 4 * a * c) :=
    Real.sqrt_le_sqrt (by nlinarith)
  rwa [Real.sqrt_sq_eq_abs] at h1

lemma quadRoot_nonneg {a b c : ℝ} (ha : 0 < a) (hc : c ≤ 0) : 0 ≤ quadRoot a b c := by
  unfold quadRoot
  have h2 := sqrt_disc_ge_abs_b a b c ha hc
  have h3 : 0 ≤ -b + Real.sqrt (b * b - 4 * a * c) := by
    have hb := le_abs_self b
    linarith
  exact div_nonneg h3 (by positivity)

lemma quadRoot_isRoot {a b c : ℝ} (ha : 0 < a) (hc : c ≤ 0) :
    a * quadRoot a b c * quadRoot a b c + b * quadRoot a b c + c = 0 := by
  have hd := quad_disc_nonneg a b c ha hc
  have hs : Real.sqrt (b * b - 4 * a * c) * Real.sqrt (b * b - 4 * a * c) =
      b * b - 4 * a * c := Real.mul_self_sqrt hd
  have hane : (2 : ℝ) * a ≠ 0 := by positivity
  unfold quadRoot
  field_simp
  nlinarith [hs]

lemma quadRoot_mono {a b c1 c2 : ℝ} (ha : 0 < a) (h21 : c2 ≤ c1) (_hc1 : c1 ≤ 0) :
    quadRoot a b c1 ≤ quadRoot a b c2 := by
  unfold quadRoot
  have h1 : Real.sqrt (b * b - 4 * a * c1) ≤ Real.sqrt (b * b - 4 * a * c2) :=
    Real.sqrt_le_sqrt (by nlinarith)
  gcongr

lemma quad_nonpos_inside {a b c x : ℝ} (ha : 0 < a) (hc : c ≤ 0) (hx : 0 ≤ x)
    (hroot : x ≤ quadRoot a b c) : a * x * x + b * x + c ≤ 0 := by
  have hd := quad_disc_nonneg a b c ha hc
  have hs : Real.sqrt (b * b - 4 * a * c) * Real.sqrt (b * b - 4 * a * c) =
      b * b - 4 * a * c := Real.mul_self_sqrt hd
  have hsn : 0 ≤ Real.sqrt (b * b - 4 * a * c) := Real.sqrt_nonneg _
  have habs0 := sqrt_disc_ge_abs_b a b c ha hc
  have habs : -b ≤ Real.sqrt (b * b - 4 * a * c) := le_trans (neg_le_abs b) habs0
  have hfac : a * x * x + b * x + c =
      a * (x - (-b - Real.sqrt (b * b - 4 * a * c)) / (2 * a)) *
        (x - (-b + Real.sqrt (b * b - 4 * a * c)) / (2 * a)) := by
    have hane : (2 : ℝ) * a ≠ 0 := by positivity
    field_simp
    nlinarith [hs]
  rw [hfac]
  have hlow : (-b - Real.sqrt (b * b - 4 * a * c)) / (2 * a) ≤ 0 := by
    apply div_nonpos_of_nonpos_of_nonneg
    · linarith
    · positivity
  have hup : x ≤ (-b + Real.sqrt (b * b - 4 * a * c)) / (2 * a) := hroot
  have h1 : 0 ≤ x - (-b - Real.sqrt (b * b - 4 * a * c)) / (2 * a) := by linarith
  have h2 : x - (-b + Real.sqrt (b * b - 4 * a * c)) / (2 * a) ≤ 0 := by linarith
  nlinarith [mul_nonneg ha.le h1]

end

noncomputable section

lemma Tick_rotorEnergy_eq (t : Turbine) (hact : t.active = true) (hcoil : t.coilEngaged = true) :
    t.Tick.rotorEnergy =
      (let E := t.rotorEnergy +
        (if tickEffectiveFlow t t.RPM > 0 then
          tickEffectiveFlow t t.RPM * LatentHeat * TurbineMultiplier else 0) -
        t.RPM * t.inductorDragCoefficient * (t.coilSize : ℝ) -
        t.rotorMass * (t.RPM * FrictionDragMultiplier) * (t.RPM * FrictionDragMultiplier) -
        t.linearBladeMetersPerRevolution * (t.RPM * AerodynamicDragMultiplier) *
          (t.RPM * AerodynamicDragMultiplier);
      if E < 0 then 0 else E) := by
  simp only [Turbine.Tick, hact, hcoil]
  split_ifs <;> simp_all <;> linarith

end

noncomputable section

/-- One tick from the energy of a balanced RPM reproduces that RPM: if the
heating term equals the sum of induction, friction and aerodynamic drag at
RPM r, then SetEnergyForRPM r followed by Tick gives RPM r again. -/
lemma Tick_fixed_point (t : Turbine) (hact : t.active = true) (hcoil : t.coilEngaged = true)
    (hmass : 0 < t.rotorAxialMass) (r : ℝ) (hr : 0 ≤ r)
    (heff : 0 ≤ tickEffectiveFlow t r)
    (hbal : tickEffectiveFlow t r * LatentHeat * TurbineMultiplier =
      r * t.inductorDragCoefficient * (t.coilSize : ℝ) +
      t.rotorMass * (r * FrictionDragMultiplier) * (r * FrictionDragMultiplier) +
      t.linearBladeMetersPerRevolution * (r * AerodynamicDragMultiplier) *
        (r * AerodynamicDragMultiplier)) :
    ((t.SetEnergyForRPM r).Tick).RPM = r := by
  set u := t.SetEnergyForRPM r with hu
  have hurpm : u.RPM = r := by
    show t.rotorAxialMass * r / t.rotorAxialMass = r
    rw [mul_comm, mul_div_assoc, div_self (ne_of_gt hmass), mul_one]
  have huact : u.active = true := hact
  have hucoil : u.coilEngaged = true := hcoil
  have hE := Tick_rotorEnergy_eq u huact hucoil
  rw [hurpm] at hE
  have he1 : tickEffectiveFlow u r = tickEffectiveFlow t r := rfl
  have he2 : u.rotorEnergy = t.rotorAxialMass * r := rfl
  have he3 : u.inductorDragCoefficient = t.inductorDragCoefficient := rfl
  have he4 : u.rotorMass = t.rotorMass := rfl
  have he5 : u.linearBladeMetersPerRevolution = t.linearBladeMetersPerRevolution := rfl
  have he6 : u.coilSize = t.coilSize := rfl
  rw [he1, he2, he3, he4, he5, he6] at hE
  have hEval : t.rotorAxialMass * r +
      (if tickEffectiveFlow t r > 0 then
        tickEffectiveFlow t r * LatentHeat * TurbineMultiplier else 0) -
      r * t.inductorDragCoefficient * (t.coilSize : ℝ) -
      t.rotorMass * (r * FrictionDragMultiplier) * (r * FrictionDragMultiplier) -
      t.linearBladeMetersPerRevolution * (r * AerodynamicDragMultiplier) *
        (r * AerodynamicDragMultiplier) = t.rotorAxialMass * r := by
    split_ifs with hpos
    · linarith
    · have heq0 : tickEffectiveFlow t r = 0 := le_antisymm (not_lt.mp hpos) heff
      rw [heq0] at hbal
      simp only [zero_mul] at hbal
      linarith
  simp only [hEval] at hE
  rw [if_neg (not_lt.mpr (mul_nonneg (le_of_lt hmass) hr))] at hE
  show u.Tick.rotorEnergy / u.Tick.rotorAxialMass = r
  rw [hE, Tick_rotorAxialMass]
  show t.rotorAxialMass * r / t.rotorAxialMass = r
  rw [mul_comm, mul_div_assoc, div_self (ne_of_gt hmass), mul_one]

end

noncomputable section

/-- The low-speed effective flow is between 0 and the nominal flow. -/
lemma lowSpeedEffectiveFlow_bounds (t : Turbine) (hrcp : 0 ≤ t.rotorCapacityPerRPM)
    (hflow : 0 ≤ ((t.maxFlowRate : ℤ) : ℝ)) :
    0 ≤ lowSpeedEffectiveFlow t ∧ lowSpeedEffectiveFlow t ≤ ((t.maxFlowRate : ℤ) : ℝ) := by
  simp only [lowSpeedEffectiveFlow]
  have hcap0 : 0 ≤ t.rotorCapacityPerRPM * 100 := by positivity
  split_ifs with hgt
  · have hfpos : (0 : ℝ) < (t.maxFlowRate : ℝ) := lt_of_le_of_lt hcap0 hgt
    constructor
    · have h1 : t.rotorCapacityPerRPM * 100 * (t.rotorCapacityPerRPM * 100) /
          (t.maxFlowRate : ℝ) ≤ t.rotorCapacityPerRPM * 100 := by
        rw [div_le_iff hfpos]
        nlinarith
      linarith
    · have h2 : ((t.maxFlowRate : ℤ) : ℝ) -
          (t.rotorCapacityPerRPM * 100 + t.rotorCapacityPerRPM * 100 -
            t.rotorCapacityPerRPM * 100 * (t.rotorCapacityPerRPM * 100) / (t.maxFlowRate : ℝ)) =
          ((t.maxFlowRate : ℝ) - t.rotorCapacityPerRPM * 100) ^ 2 / (t.maxFlowRate : ℝ) := by
        field_simp
        ring
      have h3 : 0 ≤ ((t.maxFlowRate : ℝ) - t.rotorCapacityPerRPM * 100) ^ 2 /
          (t.maxFlowRate : ℝ) := by positivity
      linarith
  · exact ⟨hflow, le_refl _⟩

end

noncomputable section

/-- The root returned by FinalRPM balances the energy equation of Tick: at
the returned RPM, the heating from the effective flow equals induction
drag plus friction plus aerodynamic drag, and both the RPM and the
effective flow are non-negative.  Holds for every turbine with positive
drag coefficient a, positive rotor capacity per RPM and non-negative
nominal flow. -/
lemma FinalRPM_balance (t : Turbine) (ha : 0 < aCoef t)
    (hrcp : 0 < t.rotorCapacityPerRPM) (hflow : 0 ≤ ((t.maxFlowRate : ℤ) : ℝ)) :
    0 ≤ t.FinalRPM ∧ 0 ≤ tickEffectiveFlow t t.FinalRPM ∧
    tickEffectiveFlow t t.FinalRPM * LatentHeat * TurbineMultiplier =
      t.FinalRPM * t.inductorDragCoefficient * (t.coilSize : ℝ) +
      t.rotorMass * (t.FinalRPM * FrictionDragMultiplier) *
        (t.FinalRPM * FrictionDragMultiplier) +
      t.linearBladeMetersPerRevolution * (t.FinalRPM * AerodynamicDragMultiplier) *
        (t.FinalRPM * AerodynamicDragMultiplier) := by
  have hKR : (0 : ℝ) < RFPerHeat := by norm_num [RFPerHeat, LatentHeat, TurbineMultiplier]
  obtain ⟨hE0, hEF⟩ := lowSpeedEffectiveFlow_bounds t hrcp.le hflow
  have hc1 : -lowSpeedEffectiveFlow t * RFPerHeat ≤ 0 := by nlinarith
  have hc2 : -((t.maxFlowRate : ℤ) : ℝ) * RFPerHeat ≤ 0 := by nlinarith
  have hc21 : -((t.maxFlowRate : ℤ) : ℝ) * RFPerHeat ≤
      -lowSpeedEffectiveFlow t * RFPerHeat := by nlinarith
  have hr1 : 0 ≤ rpmLow t := quadRoot_nonneg ha hc1
  have hr2nn : 0 ≤ rpmNoCap t := quadRoot_nonneg ha hc2
  have hr12 : rpmLow t ≤ rpmNoCap t := quadRoot_mono ha hc21 hc1
  have hroot1 : aCoef t * rpmLow t * rpmLow t + bCoef t * rpmLow t +
      -lowSpeedEffectiveFlow t * RFPerHeat = 0 := quadRoot_isRoot ha hc1
  have hroot2 : aCoef t * rpmNoCap t * rpmNoCap t + bCoef t * rpmNoCap t +
      -((t.maxFlowRate : ℤ) : ℝ) * RFPerHeat = 0 := quadRoot_isRoot ha hc2
  unfold Turbine.FinalRPM
  split_ifs with h1 h2
  · -- low-speed case: the root is below 100
    have hmax : max (100 : ℝ) (rpmLow t) = 100 := max_eq_left h1.le
    have heqT : tickEffectiveFlow t (rpmLow t) = lowSpeedEffectiveFlow t := by
      simp only [tickEffectiveFlow, lowSpeedEffectiveFlow, hmax]
      split_ifs with hg
      · have hfpos : (0 : ℝ) < (t.maxFlowRate : ℝ) :=
          lt_of_le_of_lt (by positivity) hg
        field_simp
        ring
      · rfl
    refine ⟨hr1, by rw [heqT]; exact hE0, ?_⟩
    rw [heqT]
    unfold aCoef bCoef RFPerHeat at hroot1
    linear_combination -hroot1
  · -- unrestricted-capacity case
    have hle : ((t.maxFlowRate : ℤ) : ℝ) ≤
        t.rotorCapacityPerRPM * max 100 (rpmNoCap t) := by
      calc ((t.maxFlowRate : ℤ) : ℝ) ≤ t.rotorCapacityPerRPM * rpmNoCap t := h2.le
      _ ≤ t.rotorCapacityPerRPM * max 100 (rpmNoCap t) :=
          mul_le_mul_of_nonneg_left (le_max_right _ _) hrcp.le
    have heqT : tickEffectiveFlow t (rpmNoCap t) = ((t.maxFlowRate : ℤ) : ℝ) := by
      simp only [tickEffectiveFlow]
      rw [if_neg (not_lt.mpr hle)]
    refine ⟨hr2nn, by rw [heqT]; exact hflow, ?_⟩
    rw [heqT]
    unfold aCoef bCoef RFPerHeat at hroot2
    linear_combination -hroot2
  · -- capacity-limited case
    have h100a : (100 : ℝ) ≤ rpmLow t := not_lt.mp h1
    have hcap2 : t.rotorCapacityPerRPM * rpmNoCap t ≤ ((t.maxFlowRate : ℤ) : ℝ) :=
      not_lt.mp h2
    have h100b : (100 : ℝ) ≤ rpmNoCap t := le_trans h100a hr12
    have hflow100 : t.rotorCapacityPerRPM * 100 ≤ ((t.maxFlowRate : ℤ) : ℝ) :=
      le_trans (by nlinarith) hcap2
    have hfpos : (0 : ℝ) < ((t.maxFlowRate : ℤ) : ℝ) :=
      lt_of_lt_of_le (by positivity) hflow100
    have ha3 : 0 < aCoef t + t.rotorCapacityPerRPM * t.rotorCapacityPerRPM /
        (t.maxFlowRate : ℝ) * RFPerHeat :=
      add_pos ha (mul_pos (div_pos (mul_pos hrcp hrcp) hfpos) hKR)
    have hQ100 : aCoef t * 100 * 100 + bCoef t * 100 +
        -lowSpeedEffectiveFlow t * RFPerHeat ≤ 0 :=
      quad_nonpos_inside ha hc1 (by norm_num) h100a
    have heff1 : lowSpeedEffectiveFlow t =
        2 * t.rotorCapacityPerRPM * 100 -
          t.rotorCapacityPerRPM * t.rotorCapacityPerRPM * 100 * 100 /
            (t.maxFlowRate : ℝ) := by
      simp only [lowSpeedEffectiveFlow]
      split_ifs with hg
      · field_simp
        ring
      · have hfe : (t.maxFlowRate : ℝ) = t.rotorCapacityPerRPM * 100 :=
          le_antisymm (not_lt.mp hg) hflow100
        have hne : t.rotorCapacityPerRPM * 100 ≠ 0 := by positivity
        rw [hfe]
        field_simp
        ring
    have hval100 : (aCoef t + t.rotorCapacityPerRPM * t.rotorCapacityPerRPM /
          (t.maxFlowRate : ℝ) * RFPerHeat) * 100 +
        (bCoef t + -2 * t.rotorCapacityPerRPM * RFPerHeat) ≤ 0 := by
      have hEq : ((aCoef t + t.rotorCapacityPerRPM * t.rotorCapacityPerRPM /
            (t.maxFlowRate : ℝ) * RFPerHeat) * 100 +
          (bCoef t + -2 * t.rotorCapacityPerRPM * RFPerHeat)) * 100 =
          aCoef t * 100 * 100 + bCoef t * 100 +
            -lowSpeedEffectiveFlow t * RFPerHeat := by
        rw [heff1]
        field_simp
        ring
      linarith [hQ100, hEq]
    have hr3 : (100 : ℝ) ≤ rpmCapped t := by
      show (100 : ℝ) ≤ -(bCoef t + -2 * t.rotorCapacityPerRPM * RFPerHeat) /
        (aCoef t + t.rotorCapacityPerRPM * t.rotorCapacityPerRPM /
          (t.maxFlowRate : ℝ) * RFPerHeat)
      rw [le_div_iff ha3]
      linarith [hval100]
    have hr2pos : (0 : ℝ) < rpmNoCap t := by linarith
    have hP2 : 0 ≤ (aCoef t + t.rotorCapacityPerRPM * t.rotorCapacityPerRPM /
          (t.maxFlowRate : ℝ) * RFPerHeat) * rpmNoCap t * rpmNoCap t +
        (bCoef t + -2 * t.rotorCapacityPerRPM * RFPerHeat) * rpmNoCap t := by
      have hcapid : ((t.maxFlowRate : ℝ) -
          t.rotorCapacityPerRPM * rpmNoCap t) ^ 2 / (t.maxFlowRate : ℝ) =
          (t.maxFlowRate : ℝ) - (2 * t.rotorCapacityPerRPM * rpmNoCap t -
            t.rotorCapacityPerRPM * t.rotorCapacityPerRPM * rpmNoCap t * rpmNoCap t /
              (t.maxFlowRate : ℝ)) := by
        field_simp
        ring
      have hcapnn : 0 ≤ ((t.maxFlowRate : ℝ) -
          t.rotorCapacityPerRPM * rpmNoCap t) ^ 2 / (t.maxFlowRate : ℝ) := by positivity
      have hEq2 : (aCoef t + t.rotorCapacityPerRPM * t.rotorCapacityPerRPM /
            (t.maxFlowRate : ℝ) * RFPerHeat) * rpmNoCap t * rpmNoCap t +
          (bCoef t + -2 * t.rotorCapacityPerRPM * RFPerHeat) * rpmNoCap t =
          (aCoef t * rpmNoCap t * rpmNoCap t + bCoef t * rpmNoCap t +
            -((t.maxFlowRate : ℤ) : ℝ) * RFPerHeat) +
          ((t.maxFlowRate : ℝ) - (2 * t.rotorCapacityPerRPM * rpmNoCap t -
            t.rotorCapacityPerRPM * t.rotorCapacityPerRPM * rpmNoCap t * rpmNoCap t /
              (t.maxFlowRate : ℝ))) * RFPerHeat := by
        field_simp
        ring
      rw [hEq2, hroot2, ← hcapid]
      have : 0 ≤ ((t.maxFlowRate : ℝ) - t.rotorCapacityPerRPM * rpmNoCap t) ^ 2 /
          (t.maxFlowRate : ℝ) * RFPerHeat := mul_nonneg hcapnn hKR.le
      linarith
    have hr3r2 : rpmCapped t ≤ rpmNoCap t := by
      show -(bCoef t + -2 * t.rotorCapacityPerRPM * RFPerHeat) /
        (aCoef t + t.rotorCapacityPerRPM * t.rotorCapacityPerRPM /
          (t.maxFlowRate : ℝ) * RFPerHeat) ≤ rpmNoCap t
      rw [div_le_iff ha3]
      nlinarith [hP2, hr2pos]
    have hrcpr3 : t.rotorCapacityPerRPM * rpmCapped t ≤ ((t.maxFlowRate : ℤ) : ℝ) :=
      le_trans (mul_le_mul_of_nonneg_left hr3r2 hrcp.le) hcap2
    have hmax3 : max (100 : ℝ) (rpmCapped t) = rpmCapped t := max_eq_right hr3
    have heqT : tickEffectiveFlow t (rpmCapped t) =
        2 * t.rotorCapacityPerRPM * rpmCapped t -
          t.rotorCapacityPerRPM * t.rotorCapacityPerRPM * rpmCapped t * rpmCapped t /
            (t.maxFlowRate : ℝ) := by
      simp only [tickEffectiveFlow, hmax3]
      split_ifs with hg3
      · field_simp
        ring
      · have hfe : (t.maxFlowRate : ℝ) = t.rotorCapacityPerRPM * rpmCapped t :=
          le_antisymm (not_lt.mp hg3) hrcpr3
        have hr3pos : (0 : ℝ) < rpmCapped t := by linarith
        have hne : t.rotorCapacityPerRPM * rpmCapped t ≠ 0 := by positivity
        rw [hfe]
        field_simp
        ring
    have heffnn : 0 ≤ 2 * t.rotorCapacityPerRPM * rpmCapped t -
        t.rotorCapacityPerRPM * t.rotorCapacityPerRPM * rpmCapped t * rpmCapped t /
          (t.maxFlowRate : ℝ) := by
      have hu : 0 ≤ t.rotorCapacityPerRPM * rpmCapped t :=
        mul_nonneg hrcp.le (by linarith)
      have hdiv : t.rotorCapacityPerRPM * t.rotorCapacityPerRPM * rpmCapped t *
          rpmCapped t / (t.maxFlowRate : ℝ) ≤ t.rotorCapacityPerRPM * rpmCapped t := by
        rw [div_le_iff hfpos]
        calc t.rotorCapacityPerRPM * t.rotorCapacityPerRPM * rpmCapped t * rpmCapped t
            = (t.rotorCapacityPerRPM * rpmCapped t) *
              (t.rotorCapacityPerRPM * rpmCapped t) := by ring
        _ ≤ (t.rotorCapacityPerRPM * rpmCapped t) * (t.maxFlowRate : ℝ) :=
            mul_le_mul_of_nonneg_left hrcpr3 hu
        _ = t.rotorCapacityPerRPM * rpmCapped t * (t.maxFlowRate : ℝ) := by ring
      linarith [hdiv, hu]
    have hzero : (aCoef t + t.rotorCapacityPerRPM * t.rotorCapacityPerRPM /
          (t.maxFlowRate : ℝ) * RFPerHeat) * rpmCapped t +
        (bCoef t + -2 * t.rotorCapacityPerRPM * RFPerHeat) = 0 := by
      rw [show rpmCapped t = -(bCoef t + -2 * t.rotorCapacityPerRPM * RFPerHeat) /
        (aCoef t + t.rotorCapacityPerRPM * t.rotorCapacityPerRPM /
          (t.maxFlowRate : ℝ) * RFPerHeat) from rfl]
      field_simp
      ring
    have hP3 : (aCoef t + t.rotorCapacityPerRPM * t.rotorCapacityPerRPM /
          (t.maxFlowRate : ℝ) * RFPerHeat) * rpmCapped t * rpmCapped t +
        (bCoef t + -2 * t.rotorCapacityPerRPM * RFPerHeat) * rpmCapped t = 0 := by
      linear_combination rpmCapped t * hzero
    refine ⟨by linarith, by rw [heqT]; exact heffnn, ?_⟩
    rw [heqT]
    unfold aCoef bCoef RFPerHeat at hP3
    linear_combination -hP3

end

noncomputable section

/-- The structural facts needed by the solver claims, transported through
SetNominalFlowRate: flags still set, positive drag coefficient a, positive
rotor capacity, positive axial mass, non-negative nominal flow. -/
lemma setNominal_solver_facts {h w cl : ℤ} {cd : CoilData} {t : Turbine}
    (hok : NewTurbine h w cl cd = Except.ok t) (v : ℤ) :
    (t.SetNominalFlowRate v).active = true ∧
    (t.SetNominalFlowRate v).coilEngaged = true ∧
    0 < (t.SetNominalFlowRate v).rotorAxialMass ∧
    0 < aCoef (t.SetNominalFlowRate v) ∧
    0 < (t.SetNominalFlowRate v).rotorCapacityPerRPM ∧
    0 ≤ (((t.SetNominalFlowRate v).maxFlowRate : ℤ) : ℝ) := by
  obtain ⟨hact, hcoil, -, -, hmm0, -, hlbl, hrcp, hmass, haxial⟩ := NewTurbine_ok_facts hok
  refine ⟨hact, hcoil, haxial, ?_, hrcp, ?_⟩
  · show 0 < t.rotorMass * FrictionDragMultiplier * FrictionDragMultiplier +
      t.linearBladeMetersPerRevolution * AerodynamicDragMultiplier * AerodynamicDragMultiplier
    unfold FrictionDragMultiplier AerodynamicDragMultiplier
    nlinarith [hmass, hlbl]
  · have hz : 0 ≤ (t.SetNominalFlowRate v).maxFlowRate := by
      rw [setNominal_maxFlowRate]
      omega
    exact_mod_cast hz
end

noncomputable section

/-- C2: for every successfully constructed turbine and every nominal flow
rate, solving the closed form, setting the rotor energy for the solved
RPM and ticking once returns an RPM within a relative tolerance of one
part in a thousand of the solved RPM.  In the real-number model the fixed
point is exact, so the difference is zero. -/
theorem C2_finalRPM_fixed_point (h w cl : ℤ) (cd : CoilData) (t : Turbine)
    (hok : NewTurbine h w cl cd = Except.ok t) (v : ℤ) :
    |(((t.SetNominalFlowRate v).SetEnergyForRPM
        (t.SetNominalFlowRate v).FinalRPM).Tick).RPM -
      (t.SetNominalFlowRate v).FinalRPM| ≤
      1e-3 * (t.SetNominalFlowRate v).FinalRPM := by
  obtain ⟨hact, hcoil, hmass, haC, hrcp, hflow⟩ := setNominal_solver_facts hok v
  obtain ⟨hrnn, heffnn, hbal⟩ := FinalRPM_balance (t.SetNominalFlowRate v) haC hrcp hflow
  have hfix := Tick_fixed_point (t.SetNominalFlowRate v) hact hcoil hmass
    (t.SetNominalFlowRate v).FinalRPM hrnn heffnn hbal
  rw [hfix, sub_self, abs_zero]
  have : (0 : ℝ) ≤ 1e-3 := by norm_num
  nlinarith [hrnn]

end

noncomputable section

/-- Witness for C2 at the smallest valid turbine under a mid-range flow. -/
theorem C2_finalRPM_fixed_point_witness :
    |(((turbine451.SetNominalFlowRate 40000).SetEnergyForRPM
        (turbine451.SetNominalFlowRate 40000).FinalRPM).Tick).RPM -
      (turbine451.SetNominalFlowRate 40000).FinalRPM| ≤
      1e-3 * (turbine451.SetNominalFlowRate 40000).FinalRPM :=
  C2_finalRPM_fixed_point 4 5 1 ironCoil turbine451 rfl 40000

lemma FinalRPM_eq_spec_aux (u : Turbine) (haC : 0 < aCoef u)
    (hrcp : 0 < u.rotorCapacityPerRPM) (hflow : 0 ≤ ((u.maxFlowRate : ℤ) : ℝ)) :
    u.FinalRPM = FinalRPMspec u := by
  have hKR : (0 : ℝ) < RFPerHeat := by norm_num [RFPerHeat, LatentHeat, TurbineMultiplier]
  obtain ⟨hE0, hEF⟩ := lowSpeedEffectiveFlow_bounds u hrcp.le hflow
  have hc1 : -lowSpeedEffectiveFlow u * RFPerHeat ≤ 0 := by nlinarith
  have hc2 : -((u.maxFlowRate : ℤ) : ℝ) * RFPerHeat ≤ 0 := by nlinarith
  have hc21 : -((u.maxFlowRate : ℤ) : ℝ) * RFPerHeat ≤
      -lowSpeedEffectiveFlow u * RFPerHeat := by nlinarith
  have hr12 : rpmLow u ≤ rpmNoCap u := quadRoot_mono haC hc21 hc1
  have hroot2 : aCoef u * rpmNoCap u * rpmNoCap u + bCoef u * rpmNoCap u +
      -((u.maxFlowRate : ℤ) : ℝ) * RFPerHeat = 0 := quadRoot_isRoot haC hc2
  have heff : (if (u.maxFlowRate : ℝ) > u.rotorCapacityPerRPM * 100 then
      u.rotorCapacityPerRPM * 100 +
        ((u.maxFlowRate : ℝ) - u.rotorCapacityPerRPM * 100) *
          (u.rotorCapacityPerRPM * 100 / (u.maxFlowRate : ℝ))
      else (u.maxFlowRate : ℝ)) = lowSpeedEffectiveFlow u := by
    simp only [lowSpeedEffectiveFlow]
    split_ifs with hg
    · have hfpos : (0 : ℝ) < (u.maxFlowRate : ℝ) :=
        lt_of_le_of_lt (by positivity) hg
      field_simp
      ring
    · rfl
  show u.FinalRPM = FinalRPMspec u
  simp only [FinalRPMspec, heff]
  show (if rpmLow u < 100 then rpmLow u
      else if (u.maxFlowRate : ℝ) < u.rotorCapacityPerRPM * rpmNoCap u then rpmNoCap u
      else rpmCapped u) =
    (if rpmLow u < 100 then rpmLow u
      else if u.rotorCapacityPerRPM * rpmNoCap u ≥ (u.maxFlowRate : ℝ) then rpmNoCap u
      else rpmCapped u)
  by_cases hA : rpmLow u < 100
  · rw [if_pos hA, if_pos hA]
  · rw [if_neg hA, if_neg hA]
    by_cases hB : (u.maxFlowRate : ℝ) < u.rotorCapacityPerRPM * rpmNoCap u
    · rw [if_pos hB, if_pos (le_of_lt hB)]
    · by_cases hC : (u.maxFlowRate : ℝ) ≤ u.rotorCapacityPerRPM * rpmNoCap u
      · rw [if_neg hB, if_pos hC]
        -- boundary: nominal flow equals the predicted rotor capacity
        have hEqF : (u.maxFlowRate : ℝ) = u.rotorCapacityPerRPM * rpmNoCap u :=
          le_antisymm hC (not_lt.mp hB)
        have h100a : (100 : ℝ) ≤ rpmLow u := not_lt.mp hA
        have h100b : (100 : ℝ) ≤ rpmNoCap u := le_trans h100a hr12
        have hr2pos : (0 : ℝ) < rpmNoCap u := by linarith
        have hFpos : (0 : ℝ) < (u.maxFlowRate : ℝ) := by
          rw [hEqF]; positivity
        have ha3 : 0 < aCoef u + u.rotorCapacityPerRPM * u.rotorCapacityPerRPM /
            (u.maxFlowRate : ℝ) * RFPerHeat :=
          add_pos haC (mul_pos (div_pos (mul_pos hrcp hrcp) hFpos) hKR)
        show -(bCoef u + -2 * u.rotorCapacityPerRPM * RFPerHeat) /
          (aCoef u + u.rotorCapacityPerRPM * u.rotorCapacityPerRPM /
            (u.maxFlowRate : ℝ) * RFPerHeat) = rpmNoCap u
        rw [div_eq_iff (ne_of_gt ha3), hEqF]
        have hne1 : u.rotorCapacityPerRPM ≠ 0 := ne_of_gt hrcp
        have hne2 : rpmNoCap u ≠ 0 := ne_of_gt hr2pos
        rw [hEqF] at hroot2
        field_simp
        linear_combination (-u.rotorCapacityPerRPM) * hroot2
      · rw [if_neg hB, if_neg hC]

end

noncomputable section

/-- C1: for every successfully constructed turbine and every nominal flow
rate, FinalRPM computes exactly the three-case closed form stated in the
specification: the low-speed root with the capacity floor at 100 RPM when
that root is below 100, otherwise the unrestricted-capacity root whenever
the predicted rotor capacity reaches the nominal flow, otherwise the
capacity-limited root -b/a with the penalty folded into a and b.  At the
boundary where the predicted capacity exactly equals the flow the two
sides pick different branches with equal values. -/
theorem C1_finalRPM_three_cases (h w cl : ℤ) (cd : CoilData) (t : Turbine)
    (hok : NewTurbine h w cl cd = Except.ok t) (v : ℤ) :
    (t.SetNominalFlowRate v).FinalRPM = FinalRPMspec (t.SetNominalFlowRate v) := by
  obtain ⟨-, -, -, haC, hrcp, hflow⟩ := setNominal_solver_facts hok v
  exact FinalRPM_eq_spec_aux _ haC hrcp hflow

/-- Witness for C1 at the smallest valid turbine under a mid-range flow. -/
theorem C1_finalRPM_three_cases_witness :
    (turbine451.SetNominalFlowRate 40000).FinalRPM =
      FinalRPMspec (turbine451.SetNominalFlowRate 40000) :=
  C1_finalRPM_three_cases 4 5 1 ironCoil turbine451 rfl 40000

end
